import Mathlib

/-!
Verification of the streaming asynchronous inference pipeline of the geti_sdk
repository (`geti_sdk/demos/video_helpers/async_video_processor.py`).

The `AsyncVideoProcessor` class is embedded as a state machine: caller
operations (`start`, `process`, `stop`, `await_all`), the inference engine's
completion callback (`infer_callback`) and one iteration of the consumer
worker loop (`process_items`) become pure functions on an explicit state
record, and the concurrent execution of the whole system becomes a
nondeterministic step relation interleaving those functions.  One worker-loop
iteration is treated as atomic.

The `OrderedResultBuffer` class lives in `ordered_buffer.py`, which is not
part of the available sources; it is modelled from the specification's
description of the Ordered Result Buffer (section 4.2).  Everything else is
translated from `async_video_processor.py` directly.

Frames are identified by their sequence index: the frame submitted k-th
carries index k, so the delivery log of indices fully describes which frames
were passed to the user's processing function and in which order.
-/

namespace GetiSdk

/-- Modelled from the spec: the Ordered Result Buffer state of
`ordered_buffer.py` (absent from the sources).  `nextExpected` is the delivery
cursor (`next_expected_index`), `entries` the indices of buffered
not-yet-delivered items (the index → PendingResult map, reduced to its key
set since the payload of index i is determined by i), `minsize` the
reordering-slack threshold. -/
structure OrderedResultBuffer where
  nextExpected : Nat
  entries : List Nat
  minsize : Nat
  deriving DecidableEq, Repr

/-- Result of one call to the buffer's `get` (`takeNext`): either an item is
returned together with the successor buffer state, or the `Exhausted`/`Empty`
signal is raised, or the calling thread keeps blocking. -/
inductive GetResult
  | item (i : Nat) (b : OrderedResultBuffer)
  | exhausted
  | blocked
  deriving DecidableEq, Repr

/-- Modelled from the spec: `insert`/`put` stores an item under its index;
a duplicate of a buffered or already-delivered index is the
`DuplicateCompletion` protocol violation, returned here as `none`. -/
def OrderedResultBuffer.put (b : OrderedResultBuffer) (i : Nat) :
    Option OrderedResultBuffer :=
  if i < b.nextExpected ∨ i ∈ b.entries then none
  else some { b with entries := i :: b.entries }

/-- Modelled from the spec: `takeNext(drain)`/`get(empty_buffer)`.  In normal
mode (`drain = false`) an item is released only when the entry at
`nextExpected` is present and at least `minsize` entries have accumulated; an
absent-or-out-of-order situation keeps the caller waiting.  In drain mode the
`minsize` requirement is waived: the next expected item is returned as soon
as it exists, and when the buffer holds nothing and no completions are
outstanding the `Exhausted` signal is raised.  `outstanding` counts
submissions whose completion has not yet arrived. -/
def OrderedResultBuffer.get (b : OrderedResultBuffer) (drain : Bool)
    (outstanding : Nat) : GetResult :=
  if b.nextExpected ∈ b.entries ∧ (drain = true ∨ b.minsize ≤ b.entries.length)
  then
    .item b.nextExpected
      { b with
        nextExpected := b.nextExpected + 1
        entries := b.entries.erase b.nextExpected }
  else if drain = true ∧ b.entries = [] ∧ outstanding = 0 then .exhausted
  else .blocked

/-- Modelled from the spec: `is_empty` is true iff no buffered
(not-yet-delivered) entries remain. -/
def OrderedResultBuffer.is_empty (b : OrderedResultBuffer) : Bool :=
  b.entries.isEmpty

/-- Shared state of one `AsyncVideoProcessor` instance together with the
indices currently inside the inference engine.  `currentIndex` is the
`current_index` submission counter, `inflight` the indices submitted via
`infer_async` whose completion callback has not fired yet, `log` the indices
delivered to the user's `processing_function`, in delivery order.
`shouldStop`, `shouldStopNow`, `isRunning` are `_should_stop`,
`_should_stop_now`, `_is_running`.  `workers` counts the alive worker
threads, and `stopPending` records that a call to `stop` has set the flags
and is blocked in `self._worker.join()`. -/
structure ProcState where
  currentIndex : Nat
  inflight : List Nat
  buffer : OrderedResultBuffer
  log : List Nat
  shouldStop : Bool
  shouldStopNow : Bool
  isRunning : Bool
  workers : Nat
  stopPending : Bool
  deriving DecidableEq, Repr

/-- State of a freshly constructed `AsyncVideoProcessor` with the given
minimum buffer size: counter at 0, empty buffer, no worker, all flags
cleared. -/
def initState (minsize : Nat) : ProcState :=
  { currentIndex := 0
    inflight := []
    buffer := { nextExpected := 0, entries := [], minsize := minsize }
    log := []
    shouldStop := false
    shouldStopNow := false
    isRunning := false
    workers := 0
    stopPending := false }

/-- Errors raised synchronously to the caller.  The code raises `ValueError`
with a "not running" message from both `process` and `stop`; the spec names
this condition `NotRunning`. -/
inductive ProcError
  | notRunning
  deriving DecidableEq, Repr

/-- The `all_frames_inferred` flag computed at the top of the worker loop:
`self.current_index.value == num_frames` when `num_frames` was given to
`start`, `False` otherwise. -/
def allFramesInferred (numFrames : Option Nat) (s : ProcState) : Bool :=
  match numFrames with
  | some n => s.currentIndex = n
  | none => false

/-- The `empty_buffer` (drain) flag passed by the worker loop to
`self.buffer.get`: `self._should_stop or all_frames_inferred`. -/
def emptyBufferFlag (numFrames : Option Nat) (s : ProcState) : Bool :=
  s.shouldStop || allFramesInferred numFrames s

/-- One iteration of the `process_items` worker loop: first the immediate
stop check (`if self._should_stop_now: return`, which terminates the thread
without touching `_is_running`); then `buffer.get(empty_buffer)`: a delivered
item is passed synchronously to the processing function (appended to `log`),
the `Empty` signal sets `_is_running = False` and terminates the thread, and
a blocked `get` leaves the state unchanged until more completions arrive. -/
def process_items_iter (numFrames : Option Nat) (s : ProcState) : ProcState :=
  if s.shouldStopNow then { s with workers := s.workers - 1 }
  else
    match s.buffer.get (emptyBufferFlag numFrames s) s.inflight.length with
    | .item i b => { s with buffer := b, log := s.log ++ [i] }
    | .exhausted => { s with isRunning := false, workers := s.workers - 1 }
    | .blocked => s

namespace AsyncVideoProcessor

/-- The `start` method: unconditionally spawns a new worker thread and sets
`_is_running = True`.  The code performs no check that a previous worker is
still active. -/
def start (s : ProcState) : ProcState :=
  { s with workers := s.workers + 1, isRunning := true }

/-- The `process` method: raises when the processing thread is not running;
otherwise, under the `current_index` lock, reads the counter, forwards the
frame with `runtime_data = (index, user_data)` to `infer_async` (the index
joins `inflight`), then increments the counter.  The whole critical section
is one atomic operation of the model, mirroring `with
self.current_index.get_lock():`. -/
def process (s : ProcState) : Except ProcError ProcState :=
  if s.isRunning then
    .ok { s with
      inflight := s.inflight ++ [s.currentIndex]
      currentIndex := s.currentIndex + 1 }
  else .error .notRunning

/-- First half of the `stop` method: raises when `_is_running` is false;
otherwise sets `_should_stop = True` and `_should_stop_now = not wait`, then
blocks in `self._worker.join()` (recorded by `stopPending`). -/
def stopBegin (s : ProcState) (wait : Bool) : Except ProcError ProcState :=
  if s.isRunning then
    .ok { s with shouldStop := true, shouldStopNow := !wait, stopPending := true }
  else .error .notRunning

/-- Second half of the `stop` method, executed once `join()` has returned
(the worker thread has terminated): clears `_is_running`, `_should_stop` and
`_should_stop_now`.  The `current_index` counter is not touched. -/
def stopFinish (s : ProcState) : ProcState :=
  { s with
    isRunning := false
    shouldStop := false
    shouldStopNow := false
    stopPending := false }

end AsyncVideoProcessor

/-- The `infer_callback` registered as the deployment's asynchronous
callback: invoked by the engine for a completed in-flight index, it puts the
item into the ordered buffer (a `none` from `put` is the
`DuplicateCompletion` violation). -/
def infer_callback (s : ProcState) (i : Nat) : Option ProcState :=
  match s.buffer.put i with
  | some b => some { s with buffer := b, inflight := s.inflight.erase i }
  | none => none

/-- Outcome of one pass of the `await_all` polling loop: `ret` when the loop
returns because `self.buffer.is_empty and not self._worker.is_alive()` holds,
`poll` when the body falls through to `time.sleep(1e-9)` and re-checks —
i.e. the wait is realized by busy-wait polling, not by blocking on a
condition variable. -/
inductive AwaitStep
  | ret
  | poll
  deriving DecidableEq, Repr

/-- One pass of the `await_all` loop over the current shared state. -/
def await_all_step (s : ProcState) : AwaitStep :=
  if s.buffer.is_empty = true ∧ s.workers = 0 then .ret else .poll

/-- Nondeterministic interleaving of the system: caller submissions, engine
completions (in arbitrary order, any in-flight index), atomic worker-loop
iterations, a worker death caused by an exception escaping the processing
function, and the two halves of a `stop` call.  When `guarded = true`,
`start` is only taken from states with no alive worker (the intended
single-worker discipline); the code itself enforces no such guard. -/
inductive Step (guarded : Bool) (numFrames : Option Nat) :
    ProcState → ProcState → Prop
  | start (s : ProcState) (hg : guarded = true → s.workers = 0) :
      Step guarded numFrames s (AsyncVideoProcessor.start s)
  | submit (s s' : ProcState) (h : AsyncVideoProcessor.process s = .ok s') :
      Step guarded numFrames s s'
  | complete (s s' : ProcState) (i : Nat) (hin : i ∈ s.inflight)
      (h : infer_callback s i = some s') :
      Step guarded numFrames s s'
  | worker (s : ProcState) (hw : 1 ≤ s.workers) :
      Step guarded numFrames s (process_items_iter numFrames s)
  | crash (s : ProcState) (hw : 1 ≤ s.workers) :
      Step guarded numFrames s { s with workers := s.workers - 1 }
  | stopBegin (s s' : ProcState) (wait : Bool)
      (h : AsyncVideoProcessor.stopBegin s wait = .ok s') :
      Step guarded numFrames s s'
  | stopFinish (s : ProcState) (hp : s.stopPending = true)
      (hw : s.workers = 0) :
      Step guarded numFrames s (AsyncVideoProcessor.stopFinish s)

/-- States reachable from a freshly constructed instance. -/
def Reachable (guarded : Bool) (numFrames : Option Nat) (minsize : Nat)
    (s : ProcState) : Prop :=
  Relation.ReflTransGen (Step guarded numFrames) (initState minsize) s

/-- Elimination lemma for a successful `get`: the returned item is the one at
the cursor, the release condition held, and the successor buffer advances the
cursor by one and removes exactly that entry. -/
theorem get_item_elim {b : OrderedResultBuffer} {drain : Bool}
    {outstanding : Nat} {i : Nat} {b' : OrderedResultBuffer}
    (h : b.get drain outstanding = .item i b') :
    i = b.nextExpected ∧ b.nextExpected ∈ b.entries ∧
      (drain = true ∨ b.minsize ≤ b.entries.length) ∧
      b' = { b with
        nextExpected := b.nextExpected + 1
        entries := b.entries.erase b.nextExpected } := by
  unfold OrderedResultBuffer.get at h
  split at h
  · next hc =>
    cases h
    exact ⟨rfl, hc.1, hc.2, rfl⟩
  · split at h <;> cases h

/-- Elimination lemma for the `Exhausted` signal: it is raised exactly in
drain mode with an empty buffer and no outstanding completions. -/
theorem get_exhausted_elim {b : OrderedResultBuffer} {drain : Bool}
    {outstanding : Nat} (h : b.get drain outstanding = .exhausted) :
    drain = true ∧ b.entries = [] ∧ outstanding = 0 := by
  unfold OrderedResultBuffer.get at h
  split at h
  · cases h
  · split at h
    · next hc => exact hc
    · cases h

/-- When the entry at the cursor is absent, a normal-mode `get` keeps the
caller blocked. -/
theorem get_blocked_of_not_next {b : OrderedResultBuffer} {outstanding : Nat}
    (h : b.nextExpected ∉ b.entries) :
    b.get false outstanding = .blocked := by
  unfold OrderedResultBuffer.get
  split
  · next hc => exact absurd hc.1 h
  · split
    · next hc => cases hc.1
    · rfl

/-- Central invariant of the pipeline: the delivery log is exactly the
indices below the buffer cursor, in increasing order, and the indices below
the submission counter are partitioned — with multiplicity one — into
delivered (below the cursor), buffered, and in flight. -/
def StateInv (s : ProcState) : Prop :=
  s.log = List.range s.buffer.nextExpected ∧
  (List.range s.currentIndex : Multiset Nat) =
    (List.range s.buffer.nextExpected : Multiset Nat) +
      (s.buffer.entries : Multiset Nat) + (s.inflight : Multiset Nat)

theorem stateInv_init (minsize : Nat) : StateInv (initState minsize) := by
  constructor <;> rfl

theorem stateInv_step {guarded : Bool} {numFrames : Option Nat}
    {s s' : ProcState} (hstep : Step guarded numFrames s s')
    (hinv : StateInv s) : StateInv s' := by
  obtain ⟨hlog, hpart⟩ := hinv
  cases hstep with
  | start hg =>
    exact ⟨hlog, hpart⟩
  | submit s' h =>
    unfold AsyncVideoProcessor.process at h
    split at h
    · injection h with h
      subst h
      refine ⟨hlog, ?_⟩
      show (List.range (s.currentIndex + 1) : Multiset Nat) =
        _ + _ + ((s.inflight ++ [s.currentIndex] : List Nat) : Multiset Nat)
      rw [List.range_succ, ← Multiset.coe_add, ← Multiset.coe_add, hpart,
        add_assoc]
    · cases h
  | complete s' i hin h =>
    unfold infer_callback at h
    cases hput : s.buffer.put i with
    | none => rw [hput] at h; cases h
    | some b =>
      rw [hput] at h
      injection h with h
      subst h
      unfold OrderedResultBuffer.put at hput
      split at hput
      · cases hput
      · injection hput with hput
        subst hput
        refine ⟨hlog, ?_⟩
        show (List.range s.currentIndex : Multiset Nat) =
          _ + ((i :: s.buffer.entries : List Nat) : Multiset Nat) +
            ((s.inflight.erase i : List Nat) : Multiset Nat)
        rw [← Multiset.cons_coe, ← Multiset.coe_erase, hpart]
        conv_lhs =>
          rw [← Multiset.cons_erase (Multiset.mem_coe.mpr hin)]
        rw [← Multiset.singleton_add, ← Multiset.singleton_add]
        abel
  | worker hw =>
    unfold process_items_iter
    split
    · exact ⟨hlog, hpart⟩
    · split
      · next i b hget =>
        obtain ⟨hi, hmem, _, hb⟩ := get_item_elim hget
        subst hi
        subst hb
        refine ⟨?_, ?_⟩
        · show s.log ++ [s.buffer.nextExpected] =
            List.range (s.buffer.nextExpected + 1)
          rw [hlog, List.range_succ]
        · show (List.range s.currentIndex : Multiset Nat) =
            (List.range (s.buffer.nextExpected + 1) : Multiset Nat) +
              ((s.buffer.entries.erase s.buffer.nextExpected : List Nat) :
                Multiset Nat) + (s.inflight : Multiset Nat)
          rw [List.range_succ, ← Multiset.coe_add, ← Multiset.coe_erase,
            hpart]
          conv_lhs =>
            rw [← Multiset.cons_erase (Multiset.mem_coe.mpr hmem)]
          rw [← Multiset.singleton_add, Multiset.coe_singleton]
          abel
      · exact ⟨hlog, hpart⟩
      · exact ⟨hlog, hpart⟩
  | crash hw =>
    exact ⟨hlog, hpart⟩
  | stopBegin s' wait h =>
    unfold AsyncVideoProcessor.stopBegin at h
    split at h
    · injection h with h
      subst h
      exact ⟨hlog, hpart⟩
    · cases h
  | stopFinish hp hw =>
    exact ⟨hlog, hpart⟩

theorem stateInv_reachable {guarded : Bool} {numFrames : Option Nat}
    {minsize : Nat} {s : ProcState}
    (h : Reachable guarded numFrames minsize s) : StateInv s := by
  unfold Reachable at h
  induction h with
  | refl => exact stateInv_init minsize
  | tail _ hstep ih => exact stateInv_step hstep ih

/-- Elimination lemma for a successful `process` call: the running flag was
set, the pre-increment counter value is appended to the in-flight indices
(it is the index submitted to `infer_async`), and the counter is
incremented. -/
theorem process_ok_elim {s s' : ProcState}
    (h : AsyncVideoProcessor.process s = .ok s') :
    s.isRunning = true ∧
      s' = { s with
        inflight := s.inflight ++ [s.currentIndex]
        currentIndex := s.currentIndex + 1 } := by
  unfold AsyncVideoProcessor.process at h
  split at h
  · next hr =>
    injection h with h
    exact ⟨hr, h.symm⟩
  · cases h

/-- Elimination lemma for a successful `stopBegin`: the running flag was set
and only the stop flags change. -/
theorem stopBegin_ok_elim {s s' : ProcState} {wait : Bool}
    (h : AsyncVideoProcessor.stopBegin s wait = .ok s') :
    s.isRunning = true ∧
      s' = { s with
        shouldStop := true
        shouldStopNow := !wait
        stopPending := true } := by
  unfold AsyncVideoProcessor.stopBegin at h
  split at h
  · next hr =>
    injection h with h
    exact ⟨hr, h.symm⟩
  · cases h

/-- Elimination lemma for a successful completion callback: the index was
neither delivered nor buffered before, it joins the buffer entries, and it
leaves the in-flight set. -/
theorem infer_callback_elim {s s' : ProcState} {i : Nat}
    (h : infer_callback s i = some s') :
    ¬(i < s.buffer.nextExpected ∨ i ∈ s.buffer.entries) ∧
      s' = { s with
        buffer := { s.buffer with entries := i :: s.buffer.entries }
        inflight := s.inflight.erase i } := by
  unfold infer_callback at h
  cases hput : s.buffer.put i with
  | none => rw [hput] at h; cases h
  | some b =>
    rw [hput] at h
    injection h with h
    unfold OrderedResultBuffer.put at hput
    split at hput
    · cases hput
    · next hc =>
      injection hput with hput
      subst hput
      exact ⟨hc, h.symm⟩

/-- Fields that one worker-loop iteration never changes, and the fact that
it never spawns a worker. -/
theorem process_items_iter_fields (numFrames : Option Nat) (s : ProcState) :
    (process_items_iter numFrames s).currentIndex = s.currentIndex ∧
    (process_items_iter numFrames s).inflight = s.inflight ∧
    (process_items_iter numFrames s).shouldStop = s.shouldStop ∧
    (process_items_iter numFrames s).shouldStopNow = s.shouldStopNow ∧
    (process_items_iter numFrames s).stopPending = s.stopPending ∧
    (process_items_iter numFrames s).workers ≤ s.workers := by
  unfold process_items_iter
  split
  · exact ⟨rfl, rfl, rfl, rfl, rfl, Nat.sub_le _ _⟩
  · split
    · exact ⟨rfl, rfl, rfl, rfl, rfl, Nat.le_refl _⟩
    · exact ⟨rfl, rfl, rfl, rfl, rfl, Nat.sub_le _ _⟩
    · exact ⟨rfl, rfl, rfl, rfl, rfl, Nat.le_refl _⟩

/-- C2: in normal mode (`drain = false`) the buffer's `get` never returns an
item whose index differs from the current next-expected index, and when the
entry at the cursor is absent — even though other entries may be present —
the call keeps blocking rather than returning an out-of-order item. -/
theorem c2_takeNext_normal_mode_in_order :
    (∀ (b : OrderedResultBuffer) (outstanding i : Nat)
        (b' : OrderedResultBuffer),
      b.get false outstanding = .item i b' → i = b.nextExpected) ∧
    (∀ (b : OrderedResultBuffer) (outstanding : Nat),
      b.nextExpected ∉ b.entries → b.get false outstanding = .blocked) := by
  constructor
  · intro b outstanding i b' h
    exact (get_item_elim h).1
  · intro b outstanding h
    exact get_blocked_of_not_next h

/-- Witness for C2: with cursor 0 and only indices 2 and 1 buffered, a
normal-mode `get` blocks instead of returning a present-but-non-next
entry. -/
theorem c2_takeNext_normal_mode_in_order_witness :
    OrderedResultBuffer.get
      { nextExpected := 0, entries := [2, 1], minsize := 1 } false 3 =
      .blocked :=
  c2_takeNext_normal_mode_in_order.2
    { nextExpected := 0, entries := [2, 1], minsize := 1 } 3 (by decide)

/-- C8: lifecycle misuse fails fast and synchronously: when the running flag
is not set, `process` and `stop` both return the NotRunning error (raised as
`ValueError` by the code) before performing any mutation, so neither a
submission nor a stop side effect occurs. -/
theorem c8_not_running_fails_fast (s : ProcState) (wait : Bool)
    (h : s.isRunning = false) :
    AsyncVideoProcessor.process s = .error .notRunning ∧
    AsyncVideoProcessor.stopBegin s wait = .error .notRunning := by
  unfold AsyncVideoProcessor.process AsyncVideoProcessor.stopBegin
  rw [h]
  exact ⟨rfl, rfl⟩

/-- Witness for C8: a freshly constructed instance (before `start`) rejects
both `process` and `stop`. -/
theorem c8_not_running_fails_fast_witness :
    AsyncVideoProcessor.process (initState 1) = .error .notRunning ∧
    AsyncVideoProcessor.stopBegin (initState 1) true =
      .error .notRunning :=
  c8_not_running_fails_fast (initState 1) true rfl

/-- C6: structure of one worker-loop iteration: (i) the immediate-stop flag
is checked first and, when set, the worker exits without touching the buffer
or the log; (ii) the drain flag passed to `buffer.get` equals graceful-stop
OR (an expected total was given and the submission counter has reached it);
(iii) on the `Exhausted`/`Empty` signal the loop terminates, clearing the
running flag, with no user-visible error; (iv) on a delivered item the
processing function is invoked synchronously (the index is appended to the
log) and the loop repeats; (v) scenario: `minBufferSize = 3`, exactly two
frames submitted and completed, `expectedTotal = 2` — drain mode activates
and both items are delivered without waiting for a third. -/
theorem c6_worker_loop_structure :
    (∀ (numFrames : Option Nat) (s : ProcState), s.shouldStopNow = true →
      process_items_iter numFrames s = { s with workers := s.workers - 1 }) ∧
    (∀ (numFrames : Option Nat) (s : ProcState),
      emptyBufferFlag numFrames s =
        (s.shouldStop || decide (numFrames = some s.currentIndex))) ∧
    (∀ (numFrames : Option Nat) (s : ProcState),
      s.shouldStopNow = false →
      s.buffer.get (emptyBufferFlag numFrames s) s.inflight.length =
        .exhausted →
      process_items_iter numFrames s =
        { s with isRunning := false, workers := s.workers - 1 }) ∧
    (∀ (numFrames : Option Nat) (s : ProcState) (i : Nat)
        (b : OrderedResultBuffer),
      s.shouldStopNow = false →
      s.buffer.get (emptyBufferFlag numFrames s) s.inflight.length =
        .item i b →
      process_items_iter numFrames s =
        { s with buffer := b, log := s.log ++ [i] }) ∧
    (emptyBufferFlag (some 2)
        ⟨2, [], ⟨0, [1, 0], 3⟩, [], false, false, true, 1, false⟩ = true ∧
      process_items_iter (some 2)
          ⟨2, [], ⟨0, [1, 0], 3⟩, [], false, false, true, 1, false⟩ =
        ⟨2, [], ⟨1, [1], 3⟩, [0], false, false, true, 1, false⟩ ∧
      process_items_iter (some 2)
          ⟨2, [], ⟨1, [1], 3⟩, [0], false, false, true, 1, false⟩ =
        ⟨2, [], ⟨2, [], 3⟩, [0, 1], false, false, true, 1, false⟩) := by
  refine ⟨?_, ?_, ?_, ?_, ?_⟩
  · intro numFrames s h
    unfold process_items_iter
    rw [if_pos h]
  · intro numFrames s
    cases numFrames with
    | none => simp [emptyBufferFlag, allFramesInferred]
    | some n =>
      unfold emptyBufferFlag allFramesInferred
      congr 1
      rw [decide_eq_decide]
      exact ⟨fun h => by rw [h], fun h => (Option.some_inj.mp h).symm⟩
  · intro numFrames s h hget
    unfold process_items_iter
    rw [if_neg (by simp [h]), hget]
  · intro numFrames s i b h hget
    unfold process_items_iter
    rw [if_neg (by simp [h]), hget]
  · exact ⟨by decide, by decide, by decide⟩

/-- Witness for C6: a worker iteration with the immediate-stop flag set
exits without draining. -/
theorem c6_worker_loop_structure_witness :
    process_items_iter none
      ⟨0, [], ⟨0, [], 1⟩, [], false, true, true, 1, false⟩ =
      ⟨0, [], ⟨0, [], 1⟩, [], false, true, true, 0, false⟩ :=
  c6_worker_loop_structure.1 none
    ⟨0, [], ⟨0, [], 1⟩, [], false, true, true, 1, false⟩ rfl

/-- C4 counterexample: when the wait condition fails (items are still
buffered) the `await_all` loop takes the branch that executes
`time.sleep(1e-9)` and re-checks — busy-wait polling — rather than
returning; the code therefore waits by spinning, contradicting the claim
that it blocks cooperatively without busy-spinning. -/
theorem c4_await_all_busy_polls_cex :
    await_all_step
        ⟨3, [], ⟨0, [2, 1, 0], 2⟩, [], false, false, true, 1, false⟩ =
      .poll ∧
    AwaitStep.poll ≠ AwaitStep.ret := by
  decide

/-- C4 (amended): `await_all` returns exactly when the buffer holds no
undelivered entries and no worker thread is alive, and while the condition
fails it polls (sleeps briefly and re-checks) rather than blocking on a
condition variable; a worker termination caused by the processing function
raising (the `crash` step) is a possible system step, and afterwards the
aliveness check observes the worker as no longer active, so `await_all`
returns once the buffer is empty instead of hanging. -/
theorem c4_await_all_returns_iff_drained :
    (∀ s : ProcState, await_all_step s = .ret ↔
      (s.buffer.is_empty = true ∧ s.workers = 0)) ∧
    (∀ s : ProcState, await_all_step s = .poll ↔
      ¬(s.buffer.is_empty = true ∧ s.workers = 0)) ∧
    (∀ (guarded : Bool) (numFrames : Option Nat) (s : ProcState),
      1 ≤ s.workers →
      Step guarded numFrames s { s with workers := s.workers - 1 }) ∧
    (∀ s : ProcState, s.workers = 1 → s.buffer.is_empty = true →
      await_all_step { s with workers := s.workers - 1 } = .ret) := by
  refine ⟨?_, ?_, ?_, ?_⟩
  · intro s
    constructor
    · intro h
      unfold await_all_step at h
      split at h
      · next hc => exact hc
      · cases h
    · intro h
      unfold await_all_step
      rw [if_pos h]
  · intro s
    constructor
    · intro h
      unfold await_all_step at h
      split at h
      · cases h
      · next hc => exact hc
    · intro h
      unfold await_all_step
      rw [if_neg h]
  · intro guarded numFrames s hw
    exact Step.crash s hw
  · intro s h1 h2
    unfold await_all_step
    rw [if_pos ⟨h2, show s.workers - 1 = 0 by omega⟩]

/-- Witness for C4 (amended): after the only worker dies from a
processing-function exception with an empty buffer, `await_all` returns. -/
theorem c4_await_all_returns_iff_drained_witness :
    await_all_step ⟨2, [], ⟨2, [], 1⟩, [0, 1], false, false, true, 0, false⟩ =
      .ret :=
  c4_await_all_returns_iff_drained.2.2.2
    ⟨2, [], ⟨2, [], 1⟩, [0, 1], false, false, true, 1, false⟩ rfl rfl

/-- C10: `stop` joins the worker thread before returning for both `wait`
values: the only step that completes a pending `stop` call is `stopFinish`,
and it is enabled only when no worker thread is alive; moreover from a state
with no alive worker no step changes the delivery log, so a
processing-function invocation that was in progress when `stop` was called
has run to completion before `stop` returns. -/
theorem c10_stop_joins_worker_before_return :
    (∀ (guarded : Bool) (numFrames : Option Nat) (s s' : ProcState),
      Step guarded numFrames s s' → s.stopPending = true →
      s'.stopPending = false → s.workers = 0) ∧
    (∀ (guarded : Bool) (numFrames : Option Nat) (s s' : ProcState),
      Step guarded numFrames s s' → s.workers = 0 → s'.log = s.log) := by
  constructor
  · intro g nf s s' hstep hp hp'
    cases hstep with
    | start hg => exact Bool.noConfusion (hp.symm.trans hp')
    | submit s' h =>
      obtain ⟨_, rfl⟩ := process_ok_elim h
      exact Bool.noConfusion (hp.symm.trans hp')
    | complete s' i hin h =>
      obtain ⟨_, rfl⟩ := infer_callback_elim h
      exact Bool.noConfusion (hp.symm.trans hp')
    | worker hw =>
      rw [(process_items_iter_fields nf s).2.2.2.2.1, hp] at hp'
      exact Bool.noConfusion hp'
    | crash hw => exact Bool.noConfusion (hp.symm.trans hp')
    | stopBegin s' wait h =>
      obtain ⟨_, rfl⟩ := stopBegin_ok_elim h
      exact Bool.noConfusion hp'
    | stopFinish hp2 hw => exact hw
  · intro g nf s s' hstep hw0
    cases hstep with
    | start hg => rfl
    | submit s' h => obtain ⟨_, rfl⟩ := process_ok_elim h; rfl
    | complete s' i hin h => obtain ⟨_, rfl⟩ := infer_callback_elim h; rfl
    | worker hw => rw [hw0] at hw; exact absurd hw (by decide)
    | crash hw => rfl
    | stopBegin s' wait h => obtain ⟨_, rfl⟩ := stopBegin_ok_elim h; rfl
    | stopFinish hp hw => rfl

/-- Witness for C10: the step completing a pending stop from a concrete
state is only possible with zero alive workers. -/
theorem c10_stop_joins_worker_before_return_witness :
    (⟨0, [], ⟨0, [], 1⟩, [], true, true, false, 0, true⟩ :
      ProcState).workers = 0 :=
  c10_stop_joins_worker_before_return.1 false none
    ⟨0, [], ⟨0, [], 1⟩, [], true, true, false, 0, true⟩
    (AsyncVideoProcessor.stopFinish
      ⟨0, [], ⟨0, [], 1⟩, [], true, true, false, 0, true⟩)
    (Step.stopFinish _ rfl rfl) rfl rfl

/-- C5: once the immediate-stop flag is set, no step of the system changes
the delivery log — buffered, undelivered items never reach the processing
function; the worker's next loop iteration exits at the immediate-stop check
without draining; and a pending `stop(wait := false)` call returns after two
system steps (worker exit, then join completion), with the delivery log
unchanged.  (If the instance is started again later, still-buffered items
could be delivered by the new worker; the scenario ends at the stop.) -/
theorem c5_immediate_stop_discards_buffered :
    (∀ (guarded : Bool) (numFrames : Option Nat) (s s' : ProcState),
      Step guarded numFrames s s' → s.shouldStopNow = true →
      s'.log = s.log) ∧
    (∀ (numFrames : Option Nat) (s : ProcState), s.shouldStopNow = true →
      process_items_iter numFrames s =
        { s with workers := s.workers - 1 }) ∧
    (∀ (guarded : Bool) (numFrames : Option Nat) (s : ProcState),
      s.stopPending = true → s.shouldStopNow = true → s.workers = 1 →
      Relation.ReflTransGen (Step guarded numFrames) s
        (AsyncVideoProcessor.stopFinish (process_items_iter numFrames s)) ∧
      (AsyncVideoProcessor.stopFinish
        (process_items_iter numFrames s)).log = s.log ∧
      (AsyncVideoProcessor.stopFinish
        (process_items_iter numFrames s)).stopPending = false) := by
  refine ⟨?_, ?_, ?_⟩
  · intro g nf s s' hstep hsn
    cases hstep with
    | start hg => rfl
    | submit s' h => obtain ⟨_, rfl⟩ := process_ok_elim h; rfl
    | complete s' i hin h => obtain ⟨_, rfl⟩ := infer_callback_elim h; rfl
    | worker hw =>
      show (process_items_iter nf s).log = s.log
      unfold process_items_iter
      rw [if_pos hsn]
    | crash hw => rfl
    | stopBegin s' wait h => obtain ⟨_, rfl⟩ := stopBegin_ok_elim h; rfl
    | stopFinish hp hw => rfl
  · intro nf s h
    unfold process_items_iter
    rw [if_pos h]
  · intro g nf s hp hsn hw1
    have hiter : process_items_iter nf s = { s with workers := s.workers - 1 } := by
      unfold process_items_iter
      rw [if_pos hsn]
    refine ⟨?_, ?_, rfl⟩
    · refine Relation.ReflTransGen.head (Step.worker s (by omega)) ?_
      refine Relation.ReflTransGen.head (Step.stopFinish _ ?_ ?_)
        Relation.ReflTransGen.refl
      · exact (process_items_iter_fields nf s).2.2.2.2.1.trans hp
      · rw [hiter]
        show s.workers - 1 = 0
        omega
    · show (process_items_iter nf s).log = s.log
      rw [hiter]

/-- Witness for C5: `stop(wait := false)` with three undelivered items
buffered: the stop completes in two steps and none of the three items is
delivered. -/
theorem c5_immediate_stop_discards_buffered_witness :
    Relation.ReflTransGen (Step true none)
      ⟨3, [], ⟨0, [2, 1, 0], 5⟩, [], true, true, true, 1, true⟩
      (AsyncVideoProcessor.stopFinish (process_items_iter none
        ⟨3, [], ⟨0, [2, 1, 0], 5⟩, [], true, true, true, 1, true⟩)) ∧
    (AsyncVideoProcessor.stopFinish (process_items_iter none
      ⟨3, [], ⟨0, [2, 1, 0], 5⟩, [], true, true, true, 1, true⟩)).log = [] ∧
    (AsyncVideoProcessor.stopFinish (process_items_iter none
      ⟨3, [], ⟨0, [2, 1, 0], 5⟩, [], true, true, true, 1, true⟩)).stopPending =
      false :=
  c5_immediate_stop_discards_buffered.2.2 true none
    ⟨3, [], ⟨0, [2, 1, 0], 5⟩, [], true, true, true, 1, true⟩ rfl rfl rfl

/-- C3 counterexample: a complete run — construct, `start`, one submission,
`stop(wait := false)`, worker exit, join — ends with `current_index = 1`,
while a fresh instance has `current_index = 0`: `stop` does not reset the
submission counter, so a subsequent `start` does not behave as a fresh
instance and the index counter does not restart from 0. -/
theorem c3_stop_does_not_reset_counter_cex :
    AsyncVideoProcessor.process (AsyncVideoProcessor.start (initState 4)) =
      .ok ⟨1, [0], ⟨0, [], 4⟩, [], false, false, true, 1, false⟩ ∧
    AsyncVideoProcessor.stopBegin
        ⟨1, [0], ⟨0, [], 4⟩, [], false, false, true, 1, false⟩ false =
      .ok ⟨1, [0], ⟨0, [], 4⟩, [], true, true, true, 1, true⟩ ∧
    process_items_iter none
        ⟨1, [0], ⟨0, [], 4⟩, [], true, true, true, 1, true⟩ =
      ⟨1, [0], ⟨0, [], 4⟩, [], true, true, true, 0, true⟩ ∧
    AsyncVideoProcessor.stopFinish
        ⟨1, [0], ⟨0, [], 4⟩, [], true, true, true, 0, true⟩ =
      ⟨1, [0], ⟨0, [], 4⟩, [], false, false, false, 0, false⟩ ∧
    (⟨1, [0], ⟨0, [], 4⟩, [], false, false, false, 0, false⟩ :
        ProcState).currentIndex ≠ (initState 4).currentIndex := by
  exact ⟨rfl, rfl, rfl, rfl, by decide⟩

/-- C3 (amended): completing a `stop` call (either `wait` value) resets the
stop flags and the running flag, permitting a fresh `start`, but it does not
reset the submission counter (nor the buffer): `current_index` keeps the
value it had when `stop` was called, so after a restart indices continue
from there rather than from 0. -/
theorem c3_stop_resets_flags_but_not_counter (s s' : ProcState) (wait : Bool)
    (h : AsyncVideoProcessor.stopBegin s wait = .ok s') :
    (AsyncVideoProcessor.stopFinish s').shouldStop = false ∧
    (AsyncVideoProcessor.stopFinish s').shouldStopNow = false ∧
    (AsyncVideoProcessor.stopFinish s').isRunning = false ∧
    (AsyncVideoProcessor.stopFinish s').stopPending = false ∧
    (AsyncVideoProcessor.stopFinish s').currentIndex = s.currentIndex ∧
    (AsyncVideoProcessor.stopFinish s').buffer = s.buffer ∧
    (AsyncVideoProcessor.stopFinish s').log = s.log := by
  obtain ⟨_, rfl⟩ := stopBegin_ok_elim h
  exact ⟨rfl, rfl, rfl, rfl, rfl, rfl, rfl⟩

/-- Witness for C3 (amended): a graceful stop from a state with one
delivered frame resets the flags and keeps the counter at 1. -/
theorem c3_stop_resets_flags_but_not_counter_witness :
    (AsyncVideoProcessor.stopFinish
      ⟨1, [], ⟨1, [], 1⟩, [0], true, false, true, 1, true⟩).shouldStop =
        false ∧
    (AsyncVideoProcessor.stopFinish
      ⟨1, [], ⟨1, [], 1⟩, [0], true, false, true, 1, true⟩).shouldStopNow =
        false ∧
    (AsyncVideoProcessor.stopFinish
      ⟨1, [], ⟨1, [], 1⟩, [0], true, false, true, 1, true⟩).isRunning =
        false ∧
    (AsyncVideoProcessor.stopFinish
      ⟨1, [], ⟨1, [], 1⟩, [0], true, false, true, 1, true⟩).stopPending =
        false ∧
    (AsyncVideoProcessor.stopFinish
        ⟨1, [], ⟨1, [], 1⟩, [0], true, false, true, 1, true⟩).currentIndex =
      (⟨1, [], ⟨1, [], 1⟩, [0], false, false, true, 1, false⟩ :
        ProcState).currentIndex ∧
    (AsyncVideoProcessor.stopFinish
        ⟨1, [], ⟨1, [], 1⟩, [0], true, false, true, 1, true⟩).buffer =
      (⟨1, [], ⟨1, [], 1⟩, [0], false, false, true, 1, false⟩ :
        ProcState).buffer ∧
    (AsyncVideoProcessor.stopFinish
        ⟨1, [], ⟨1, [], 1⟩, [0], true, false, true, 1, true⟩).log =
      (⟨1, [], ⟨1, [], 1⟩, [0], false, false, true, 1, false⟩ :
        ProcState).log :=
  c3_stop_resets_flags_but_not_counter
    ⟨1, [], ⟨1, [], 1⟩, [0], false, false, true, 1, false⟩
    ⟨1, [], ⟨1, [], 1⟩, [0], true, false, true, 1, true⟩ true rfl

/-- C9 counterexample: `start` spawns a new worker thread unconditionally —
calling `start` twice without an intervening `stop` leaves two workers
alive, so the processing function can be invoked concurrently from two
workers: the claim fails for the lifecycle sequence `start; start`. -/
theorem c9_double_start_spawns_second_worker_cex :
    (AsyncVideoProcessor.start
      (AsyncVideoProcessor.start (initState 2))).workers = 2 ∧
    ¬(AsyncVideoProcessor.start
      (AsyncVideoProcessor.start (initState 2))).workers ≤ 1 := by
  decide

/-- C9 (amended): provided `start` is only invoked when no worker is active
(the guarded discipline), every reachable state has at most one alive
worker, so no two processing-function invocations overlap; the code itself
performs no such guard, and a `start` while a previous worker is active
spawns a second concurrent worker. -/
theorem c9_at_most_one_worker_when_guarded (numFrames : Option Nat)
    (minsize : Nat) (s : ProcState)
    (h : Reachable true numFrames minsize s) : s.workers ≤ 1 := by
  unfold Reachable at h
  induction h with
  | refl => simp [initState]
  | tail _ hstep ih =>
    cases hstep with
    | start hg => simp [AsyncVideoProcessor.start, hg rfl]
    | submit s' h => obtain ⟨_, rfl⟩ := process_ok_elim h; exact ih
    | complete s' i hin h =>
      obtain ⟨_, rfl⟩ := infer_callback_elim h
      exact ih
    | worker hw =>
      exact le_trans (process_items_iter_fields _ _).2.2.2.2.2 ih
    | crash hw => exact le_trans (Nat.sub_le _ _) ih
    | stopBegin s' wait h => obtain ⟨_, rfl⟩ := stopBegin_ok_elim h; exact ih
    | stopFinish hp hw => exact ih

/-- Witness for C9 (amended): the freshly constructed state is reachable and
has at most one worker. -/
theorem c9_at_most_one_worker_when_guarded_witness :
    (initState 3).workers ≤ 1 :=
  c9_at_most_one_worker_when_guarded none 3 (initState 3)
    Relation.ReflTransGen.refl

/-- C7: every successful `process` call, under the counter lock, reads the
current index, forwards the frame under exactly that index (the
pre-increment counter value is appended to the in-flight indices carried by
`infer_async`), then increments the counter; the whole critical section is
one atomic step with respect to concurrent callers.  Consequently, in every
reachable state the assigned indices — delivered, buffered and in flight
together — are exactly 0, 1, ..., current_index - 1, each with multiplicity
one: dense, strictly increasing at assignment, never duplicated and never
skipped. -/
theorem c7_dense_strictly_increasing_indices (guarded : Bool)
    (numFrames : Option Nat) (minsize : Nat) (s s' : ProcState)
    (hreach : Reachable guarded numFrames minsize s)
    (hok : AsyncVideoProcessor.process s = .ok s') :
    s'.inflight = s.inflight ++ [s.currentIndex] ∧
    s'.currentIndex = s.currentIndex + 1 ∧
    (s.log : Multiset Nat) + (s.buffer.entries : Multiset Nat) +
        (s.inflight : Multiset Nat) =
      (List.range s.currentIndex : Multiset Nat) := by
  obtain ⟨hrun, rfl⟩ := process_ok_elim hok
  obtain ⟨hlog, hpart⟩ := stateInv_reachable hreach
  refine ⟨rfl, rfl, ?_⟩
  rw [hlog]
  exact hpart.symm

/-- Witness for C7: from the started fresh instance, the first submission is
assigned index 0 and bumps the counter to 1. -/
theorem c7_dense_strictly_increasing_indices_witness :
    (⟨1, [0], ⟨0, [], 2⟩, [], false, false, true, 1, false⟩ :
        ProcState).inflight = [] ++ [0] ∧
    (⟨1, [0], ⟨0, [], 2⟩, [], false, false, true, 1, false⟩ :
        ProcState).currentIndex = 0 + 1 ∧
    (([] : List Nat) : Multiset Nat) + (([] : List Nat) : Multiset Nat) +
        (([] : List Nat) : Multiset Nat) =
      (List.range 0 : Multiset Nat) :=
  c7_dense_strictly_increasing_indices true none 2
    ⟨0, [], ⟨0, [], 2⟩, [], false, false, true, 1, false⟩
    ⟨1, [0], ⟨0, [], 2⟩, [], false, false, true, 1, false⟩
    (Relation.ReflTransGen.head (Step.start (initState 2) (fun _ => rfl))
      Relation.ReflTransGen.refl) rfl

/-- C1: for every run started with an expected total of N frames and every
interleaving of submissions, completion-callback arrivals and worker
iterations (completions may arrive in any order), when the worker loop
reaches its normal termination — `buffer.get` signalling exhaustion with the
graceful-stop flag unset — the processing function has been invoked exactly
once per submitted frame, with indices exactly in the order
0, 1, ..., N-1; and the only steps that extend the delivery log are
consumer-worker loop iterations taken with at least one alive worker, so
every invocation is made by the worker. -/
theorem c1_delivery_in_submission_order (guarded : Bool) (N minsize : Nat)
    (s : ProcState) (hreach : Reachable guarded (some N) minsize s)
    (hstop : s.shouldStop = false)
    (hexh : s.buffer.get (emptyBufferFlag (some N) s) s.inflight.length =
      .exhausted) :
    (s.log = List.range N ∧ s.currentIndex = N) ∧
    (∀ (t t' : ProcState), Step guarded (some N) t t' → t'.log ≠ t.log →
      1 ≤ t.workers ∧ t' = process_items_iter (some N) t) := by
  constructor
  · obtain ⟨hlog, hpart⟩ := stateInv_reachable hreach
    obtain ⟨hdrain, hempty, hout⟩ := get_exhausted_elim hexh
    have hN : s.currentIndex = N := by
      unfold emptyBufferFlag allFramesInferred at hdrain
      rw [hstop] at hdrain
      simpa using hdrain
    have hinf : s.inflight = [] := List.length_eq_zero.mp hout
    rw [hempty, hinf] at hpart
    simp only [Multiset.coe_nil, add_zero] at hpart
    have hnext : s.buffer.nextExpected = s.currentIndex := by
      have hcard := congrArg Multiset.card hpart
      simpa using hcard.symm
    rw [hnext, hN] at hlog
    exact ⟨hlog, hN⟩
  · intro t t' hstep hne
    cases hstep with
    | start hg => exact absurd rfl hne
    | submit s' h =>
      obtain ⟨_, rfl⟩ := process_ok_elim h
      exact absurd rfl hne
    | complete s' i hin h =>
      obtain ⟨_, rfl⟩ := infer_callback_elim h
      exact absurd rfl hne
    | worker hw => exact ⟨hw, rfl⟩
    | crash hw => exact absurd rfl hne
    | stopBegin s' wait h =>
      obtain ⟨_, rfl⟩ := stopBegin_ok_elim h
      exact absurd rfl hne
    | stopFinish hp hw => exact absurd rfl hne

/-- Witness for C1: a complete run with N = 1 — start, submit frame 0, the
completion arrives, the worker delivers it — reaches the exhaustion point
with the log equal to [0]. -/
theorem c1_delivery_in_submission_order_witness :
    (⟨1, [], ⟨1, [], 1⟩, [0], false, false, true, 1, false⟩ :
        ProcState).log = List.range 1 ∧
    (⟨1, [], ⟨1, [], 1⟩, [0], false, false, true, 1, false⟩ :
        ProcState).currentIndex = 1 := by
  refine (c1_delivery_in_submission_order true 1 1
    ⟨1, [], ⟨1, [], 1⟩, [0], false, false, true, 1, false⟩ ?_ rfl
    (by decide)).1
  refine Relation.ReflTransGen.head
    (Step.start (initState 1) (fun _ => rfl)) ?_
  refine Relation.ReflTransGen.head (Step.submit _
    ⟨1, [0], ⟨0, [], 1⟩, [], false, false, true, 1, false⟩ rfl) ?_
  refine Relation.ReflTransGen.head (Step.complete _
    ⟨1, [], ⟨0, [0], 1⟩, [], false, false, true, 1, false⟩ 0
    (by decide) rfl) ?_
  have h : process_items_iter (some 1)
      ⟨1, [], ⟨0, [0], 1⟩, [], false, false, true, 1, false⟩ =
      ⟨1, [], ⟨1, [], 1⟩, [0], false, false, true, 1, false⟩ := by decide
  exact Relation.ReflTransGen.head (h ▸ Step.worker _ (by decide))
    Relation.ReflTransGen.refl

end GetiSdk
